import Mathlib

/-!
Verification of the retrieval-augmented chat session manager in
`app_streamlit.py`: store resolution and caching, bounded conversation
history, request throttling, and the retrying query executor.

The embedding follows the source script: each Python construct that the
claims touch is translated into an executable Lean definition, and the
observable effects (returned strings, UI error banners, sleeps, remote
calls) are recorded explicitly.
-/

namespace Presto

/-- One chat message (`types.Content` with a single text part):
a role ("user" / "model") and the text. -/
structure Content where
  role : String
  text : String
deriving Repr, DecidableEq

/-- The response of the remote `generate_content` transport for one attempt:
either a success carrying `response.text` (which may be `None`), or a raised
`errors.ServerError`, or a raised (non-server) `errors.APIError`,
each with its message string. -/
inductive TransportResp where
  | success (text : Option String)
  | serverError (msg : String)
  | apiError (msg : String)
deriving Repr, DecidableEq

/-- Whether the character list `p` occurs at the start of `l`
(Python `str.startswith` on the tail under scan). -/
def charsStartWith : List Char → List Char → Bool
  | [], _ => true
  | _ :: _, [] => false
  | a :: as, b :: bs => a == b && charsStartWith as bs

/-- Whether the character list `p` occurs as a contiguous sublist of `l`
(the semantics of Python's `p in s` on strings). -/
def charsContain (p : List Char) : List Char → Bool
  | [] => p.isEmpty
  | c :: rest => charsStartWith p (c :: rest) || charsContain p rest

/-- `"overloaded" in str(e)`: the overload test on a server-error message. -/
def containsOverloaded (s : String) : Bool :=
  charsContain "overloaded".toList s.toList

/-- `max_retries = 5` in `ask_question`. -/
def max_retries : Nat := 5

/-- `delay = 2` seconds between retries in `ask_question`. -/
def delay : Nat := 2

/-- The `st.error` banner shown when a server error is not retried
(terminal overload outcome). -/
def overloadUiMsg : String :=
  "현재 Gemini 서버가 과부하 상태입니다. 잠시 후 다시 시도해 주세요."

/-- The `st.error` banner shown for a non-server `errors.APIError`. -/
def apiErrorUiMsg (e : String) : String :=
  "Gemini API 에러 발생: " ++ e

/-- The observable behaviour of one `ask_question` call: the returned string,
how many `generate_content` attempts were made, the seconds slept between
consecutive attempts (in order), and the `st.error` banners displayed. -/
structure AskResult where
  text : String
  attempts : Nat
  sleeps : List Nat
  uiErrors : List String
deriving Repr, DecidableEq

/-- The body of the `for attempt in range(1, max_retries + 1)` loop of
`ask_question`. `transport n` is the remote outcome of the `n`-th attempt.
The `fuel` argument only bounds the recursion: from the entry point it is
`max_retries + 1 - attempt`, and since a retry requires
`attempt < max_retries`, the fuel stays positive and the `fuel = 0` branch
is unreachable. -/
def askFrom (transport : Nat → TransportResp) : Nat → Nat → AskResult
  | _, 0 => ⟨"", 0, [], []⟩
  | attempt, fuel + 1 =>
    match transport attempt with
    | .success t => ⟨t.getD "", 1, [], []⟩
    | .serverError msg =>
      if containsOverloaded msg ∧ attempt < max_retries then
        let r := askFrom transport (attempt + 1) fuel
        ⟨r.text, r.attempts + 1, delay :: r.sleeps, r.uiErrors⟩
      else
        ⟨"", 1, [], [overloadUiMsg]⟩
    | .apiError msg => ⟨"", 1, [], [apiErrorUiMsg msg]⟩

/-- `ask_question` against an abstract transport: attempts start at 1 and the
loop runs for at most `max_retries` iterations. -/
def ask_question (transport : Nat → TransportResp) : AskResult :=
  askFrom transport 1 max_retries

/-- A representative overload server-error message (`"overloaded" in str(e)`
holds for it). -/
def overloadedErr : String := "503 The model is overloaded."

/-- A stubbed transport returning `k` consecutive overload server errors and
then succeeding with text `t`. -/
def overloadThenSuccess (k : Nat) (t : String) : Nat → TransportResp :=
  fun n => if n ≤ k then .serverError overloadedErr else .success (some t)

/-! ### Conversation history -/

/-- `MAX_TURNS = 6`: the number of retained user/assistant pairs. -/
def MAX_TURNS : Nat := 6

/-- The truncation step after appending a reply:
`if len(history) > MAX_TURNS * 2: history = history[-MAX_TURNS * 2:]`
(Python `l[-n:]` keeps the last `n` elements). -/
def truncateHist (h : List Content) : List Content :=
  if h.length > MAX_TURNS * 2 then h.drop (h.length - MAX_TURNS * 2) else h

/-- Appending one user/assistant pair and then truncating, as the query flow
does (`history.append(user_msg); history.append(model_msg); truncate`). -/
def appendPairStep (h : List Content) (p : Content × Content) : List Content :=
  truncateHist (h ++ [p.1, p.2])

/-- The history produced by a session that starts empty and appends the given
user/assistant pairs in order, truncating after each pair. -/
def runPairs (ps : List (Content × Content)) : List Content :=
  ps.foldl appendPairStep []

/-- The last `n` elements of a list. -/
def lastN (n : Nat) (l : List α) : List α := l.drop (l.length - n)

/-- A pair list flattened into the turn sequence it denotes
(user turn then assistant turn, in chronological order). -/
def flattenPairs : List (Content × Content) → List Content
  | [] => []
  | p :: q => p.1 :: p.2 :: flattenPairs q

/-! ### The submission handler (throttle, query, fallback, history update) -/

/-- The fallback string the UI substitutes when `ask_question` returns an
empty (falsy) string. -/
def fallbackMsg : String := "⚠️ 응답을 가져오지 못했습니다. (서버 과부하 또는 API 에러)"

/-- The `st.warning` shown when the throttle rejects a submission. -/
def intervalWarning : String := "요청 간격이 너무 짧습니다. 잠시 후 다시 입력해 주세요."

/-- The minimum inter-request interval in seconds (`1.5`). -/
def MIN_INTERVAL : ℚ := 3 / 2

/-- The observable outcome of one submission of non-empty user input:
the new session history and `last_request_time`, the contents sent to the
model (`none` when throttled), the displayed assistant answer (`none` when
throttled), the number of remote attempts and the sleeps they incurred, the
`st.warning` messages, and the `st.error` messages. -/
structure StepResult where
  history : List Content
  last_request_time : ℚ
  sent : Option (List Content)
  displayed : Option String
  attempts : Nat
  sleeps : List Nat
  warnings : List String
  uiErrors : List String
deriving Repr, DecidableEq

/-- The `if user_input:` block of the script, for one submission at time
`now` with session state `(hist, last)`. A transport stub stands in for the
remote call inside `ask_question`. The throttled branch only updates
`last_request_time` and warns; the allowed branch sends the full history
plus the new user message, substitutes `fallbackMsg` for a falsy answer,
appends the user and model turns, and truncates the history. -/
def handleInput (transport : Nat → TransportResp) (hist : List Content)
    (last now : ℚ) (input : String) : StepResult :=
  if now - last < MIN_INTERVAL then
    ⟨hist, now, none, none, 0, [], [intervalWarning], []⟩
  else
    let user_msg : Content := ⟨"user", input⟩
    let temp_history := hist ++ [user_msg]
    let r := ask_question transport
    let answer := if r.text = "" then fallbackMsg else r.text
    let model_msg : Content := ⟨"model", answer⟩
    ⟨truncateHist (hist ++ [user_msg, model_msg]), now, some temp_history,
      some answer, r.attempts, r.sleeps, [], r.uiErrors⟩

/-! ### Store resolution and memoization -/

/-- A remote store object: its stable `name` and its `display_name` attribute,
which `getattr(s, "display_name", None)` reads as an optional string. -/
structure Store where
  name : String
  display_name : Option String
deriving Repr, DecidableEq

/-- The scan loop of `get_store`: walk the listing in order and return the
first store whose `display_name` equals the requested one. -/
def scanStores (dn : String) : List Store → Option Store
  | [] => none
  | s :: rest => if s.display_name == some dn then some s else scanStores dn rest

/-- The per-process state of the `@st.cache_resource` wrapper around
`get_store`, plus call counters for the remote listing and creation
endpoints. The cache maps the `display_name` argument to the memoized
result; `st.cache_resource` stores a result only when the wrapped function
returns normally, so a raised transport error leaves the cache unchanged. -/
structure ResolveState where
  cache : List (String × Store)
  listCalls : Nat
  createCalls : Nat
deriving Repr, DecidableEq

/-- Memoized `get_store`. `list_op` is the outcome of
`client.file_search_stores.list()` and `create_op dn` the outcome of
`client.file_search_stores.create(...)`; either may raise, modelled as
`Except.error`. Returns the result (or propagated error) and the new
wrapper state. -/
def get_store (list_op : Except String (List Store))
    (create_op : String → Except String Store) (dn : String)
    (st : ResolveState) : Except String Store × ResolveState :=
  match st.cache.find? (fun e => e.1 == dn) with
  | some e => (.ok e.2, st)
  | none =>
    match list_op with
    | .error err => (.error err, { st with listCalls := st.listCalls + 1 })
    | .ok stores =>
      let st1 := { st with listCalls := st.listCalls + 1 }
      match scanStores dn stores with
      | some s => (.ok s, { st1 with cache := st1.cache ++ [(dn, s)] })
      | none =>
        match create_op dn with
        | .error err => (.error err, { st1 with createCalls := st1.createCalls + 1 })
        | .ok s =>
          (.ok s, { st1 with createCalls := st1.createCalls + 1,
                             cache := st1.cache ++ [(dn, s)] })

/-! ### Startup -/

/-- The `st.error` shown when the API key is missing. -/
def cfgErrMsg : String :=
  "환경 변수 GOOGLE_API_KEY가 설정되어 있지 않습니다. (GOOGLE_API_KEY)"

/-- The externally visible steps of the script prologue and setup. -/
inductive StartupStep where
  | readEnv
  | uiError (msg : String)
  | halt
  | renderPage
  | buildClient
deriving Repr, DecidableEq

/-- Python truthiness of `os.getenv(...)`: `None` and the empty string are
falsy. -/
def pyTruthy : Option String → Bool
  | none => false
  | some v => !(v == "")

/-- The script prologue: read `GOOGLE_API_KEY`; `if not api_key:` show the
config error and `st.stop()` (no further step runs); otherwise proceed to
page rendering and, via `get_store` in the sidebar flow, client
construction. -/
def startup (envKey : Option String) : List StartupStep :=
  .readEnv ::
    (if pyTruthy envKey then [.renderPage, .buildClient]
     else [.uiError cfgErrMsg, .halt])

/-! ## Helper lemmas: the retry loop -/

lemma askFrom_success {tr : Nat → TransportResp} {a : Nat} {t : Option String}
    (f : Nat) (h : tr a = .success t) :
    askFrom tr a (f + 1) = ⟨t.getD "", 1, [], []⟩ := by
  simp [askFrom, h]

lemma askFrom_apiError {tr : Nat → TransportResp} {a : Nat} {e : String}
    (f : Nat) (h : tr a = .apiError e) :
    askFrom tr a (f + 1) = ⟨"", 1, [], [apiErrorUiMsg e]⟩ := by
  simp [askFrom, h]

lemma askFrom_server_stop {tr : Nat → TransportResp} {a : Nat} {e : String}
    (f : Nat) (h : tr a = .serverError e)
    (hc : ¬(containsOverloaded e = true ∧ a < max_retries)) :
    askFrom tr a (f + 1) = ⟨"", 1, [], [overloadUiMsg]⟩ := by
  simp only [askFrom, h]
  rw [if_neg hc]

lemma askFrom_server_retry {tr : Nat → TransportResp} {a : Nat} {e : String}
    (f : Nat) (h : tr a = .serverError e)
    (hov : containsOverloaded e = true) (ha : a < max_retries) :
    askFrom tr a (f + 1) =
      ⟨(askFrom tr (a + 1) f).text, (askFrom tr (a + 1) f).attempts + 1,
       delay :: (askFrom tr (a + 1) f).sleeps, (askFrom tr (a + 1) f).uiErrors⟩ := by
  simp only [askFrom, h]
  rw [if_pos ⟨hov, ha⟩]

/-- Running the loop through `j` consecutive overload responses adds `j`
attempts and `j` fixed delays in front of whatever the loop does from
attempt `a + j` on. -/
lemma askFrom_overload_run (tr : Nat → TransportResp) :
    ∀ (j a : Nat), a + j ≤ max_retries →
    (∀ n, a ≤ n → n < a + j → tr n = .serverError overloadedErr) →
    askFrom tr a (max_retries + 1 - a) =
      ⟨(askFrom tr (a + j) (max_retries + 1 - (a + j))).text,
       (askFrom tr (a + j) (max_retries + 1 - (a + j))).attempts + j,
       List.replicate j delay ++ (askFrom tr (a + j) (max_retries + 1 - (a + j))).sleeps,
       (askFrom tr (a + j) (max_retries + 1 - (a + j))).uiErrors⟩ := by
  intro j
  induction j with
  | zero => intro a _ _; simp
  | succ j ih =>
    intro a hle hover
    have htr : tr a = .serverError overloadedErr := hover a le_rfl (by omega)
    have ha5 : a < max_retries := by omega
    have hfuel : max_retries + 1 - a = (max_retries - a - 1) + 1 + 1 := by omega
    rw [hfuel, askFrom_server_retry _ htr (by decide) ha5]
    have hfuel2 : max_retries - a - 1 + 1 = max_retries + 1 - (a + 1) := by omega
    rw [hfuel2, ih (a + 1) (by omega) (fun n hn1 hn2 => hover n (by omega) (by omega))]
    have hidx : a + 1 + j = a + (j + 1) := by omega
    rw [hidx]
    simp [List.replicate_succ]
    omega

/-- With `k < max_retries` overloads before a success, the loop returns the
success text after `k + 1` attempts and `k` delays. -/
lemma ask_overload_small {k : Nat} (t : String) (hk : k < max_retries) :
    ask_question (overloadThenSuccess k t) = ⟨t, k + 1, List.replicate k delay, []⟩ := by
  have hrun := askFrom_overload_run (overloadThenSuccess k t) k 1 (by omega)
    (fun n hn1 hn2 => by simp only [overloadThenSuccess]; rw [if_pos (by omega)])
  have h0 : max_retries + 1 - 1 = max_retries := rfl
  rw [ask_question, ← h0, hrun]
  have hsucc : overloadThenSuccess k t (1 + k) = .success (some t) := by
    simp only [overloadThenSuccess]; rw [if_neg (by omega)]
  have hfx : max_retries + 1 - (1 + k) = (max_retries - 1 - k) + 1 := by omega
  rw [hfx, askFrom_success _ hsucc]
  simp [Nat.add_comm]

/-- With `max_retries ≤ k` overloads, the loop exhausts the cap: five
attempts, four delays, empty text and the overload banner. -/
lemma ask_overload_big {k : Nat} (t : String) (hk : max_retries ≤ k) :
    ask_question (overloadThenSuccess k t) =
      ⟨"", max_retries, List.replicate (max_retries - 1) delay, [overloadUiMsg]⟩ := by
  have hrun := askFrom_overload_run (overloadThenSuccess k t) (max_retries - 1) 1 (by decide)
    (fun n hn1 hn2 => by
      simp only [overloadThenSuccess]
      rw [if_pos (by simp only [max_retries] at hn2 hk ⊢; omega)])
  have h0 : max_retries + 1 - 1 = max_retries := rfl
  rw [ask_question, ← h0, hrun]
  have htr5 : overloadThenSuccess k t (1 + (max_retries - 1)) = .serverError overloadedErr := by
    simp only [overloadThenSuccess]
    rw [if_pos (by simp only [max_retries] at hk ⊢; omega)]
  have hfx : max_retries + 1 - (1 + (max_retries - 1)) = 0 + 1 := by decide
  rw [hfx, askFrom_server_stop _ htr5 (by rintro ⟨-, h⟩; exact absurd h (by decide))]
  simp
  decide

/-- Claim C1: against a transport yielding `k` consecutive overload server
errors and then a success, `ask_question` makes `min 5 (k + 1)` attempts
(never more than 5), sleeps a fixed 2 seconds between consecutive attempts,
returns the success text when `k + 1 ≤ 5`, and returns the terminal
overloaded outcome (empty text plus overload banner, no exception) when the
overloads exhaust the cap. -/
theorem ask_question_overload_retry_policy (k : Nat) (t : String) :
    (ask_question (overloadThenSuccess k t)).attempts = min max_retries (k + 1) ∧
    (ask_question (overloadThenSuccess k t)).attempts ≤ max_retries ∧
    (ask_question (overloadThenSuccess k t)).sleeps =
      List.replicate ((ask_question (overloadThenSuccess k t)).attempts - 1) delay ∧
    (k + 1 ≤ max_retries →
      (ask_question (overloadThenSuccess k t)).text = t ∧
      (ask_question (overloadThenSuccess k t)).uiErrors = []) ∧
    (max_retries ≤ k →
      (ask_question (overloadThenSuccess k t)).text = "" ∧
      (ask_question (overloadThenSuccess k t)).uiErrors = [overloadUiMsg]) := by
  rcases Nat.lt_or_ge k max_retries with hk | hk
  · rw [ask_overload_small t hk]
    refine ⟨?_, ?_, ?_, fun _ => ⟨rfl, rfl⟩, fun h => absurd h (by omega)⟩
    · simp only [max_retries] at hk ⊢; omega
    · simp only [max_retries] at hk ⊢; omega
    · simp
  · rw [ask_overload_big t hk]
    refine ⟨?_, ?_, ?_, fun h => absurd h (by omega), fun _ => ⟨rfl, rfl⟩⟩
    · simp only [max_retries] at hk ⊢; omega
    · simp
    · simp

/-- Witness for C1 at `k = 2`: three attempts and the success text. -/
theorem ask_question_overload_retry_policy_witness :
    (ask_question (overloadThenSuccess 2 "ans")).attempts = min max_retries (2 + 1) ∧
    (ask_question (overloadThenSuccess 2 "ans")).text = "ans" :=
  ⟨(ask_question_overload_retry_policy 2 "ans").1,
   ((ask_question_overload_retry_policy 2 "ans").2.2.2.1 (by decide)).1⟩

/-- Claim C6 counterexample: a `ServerError` whose message does not indicate
overload is terminal and immediate (one attempt), but the executor shows the
overloaded banner, not the API-error banner the claim promises. -/
theorem nonoverload_server_error_gets_overload_banner :
    (ask_question (fun _ => .serverError "500 Internal Server Error")).attempts = 1 ∧
    (ask_question (fun _ => .serverError "500 Internal Server Error")).uiErrors =
      [overloadUiMsg] ∧
    (ask_question (fun _ => .serverError "500 Internal Server Error")).uiErrors ≠
      [apiErrorUiMsg "500 Internal Server Error"] := by
  refine ⟨?_, ?_, ?_⟩ <;> decide

/-- Claim C6 (amended): after `j` overload retries, a non-overload error at
attempt `j + 1` terminates the loop immediately — no further attempts and no
further delay. A non-server `APIError` yields the API-error outcome, while a
non-overload `ServerError` yields the overloaded outcome. -/
theorem ask_question_nonoverload_immediate (j : Nat) (hj : j + 1 ≤ max_retries) (e : String)
    (hov : containsOverloaded e = false) :
    ask_question (fun n => if n ≤ j then .serverError overloadedErr else .apiError e) =
      ⟨"", j + 1, List.replicate j delay, [apiErrorUiMsg e]⟩ ∧
    ask_question (fun n => if n ≤ j then .serverError overloadedErr else .serverError e) =
      ⟨"", j + 1, List.replicate j delay, [overloadUiMsg]⟩ := by
  constructor
  · have hrun := askFrom_overload_run
      (fun n => if n ≤ j then .serverError overloadedErr else .apiError e) j 1
      (by simp only [max_retries] at hj ⊢; omega)
      (fun n hn1 hn2 => by simp [show n ≤ j by omega])
    have h0 : max_retries + 1 - 1 = max_retries := rfl
    rw [ask_question, ← h0, hrun]
    have hfx : max_retries + 1 - (1 + j) = (max_retries - 1 - j) + 1 := by
      simp only [max_retries] at hj ⊢; omega
    have herr : (fun n => if n ≤ j then TransportResp.serverError overloadedErr
        else TransportResp.apiError e) (1 + j) = .apiError e := by
      simp [show ¬(1 + j ≤ j) by omega]
    rw [hfx, askFrom_apiError _ herr]
    simp [Nat.add_comm]
  · have hrun := askFrom_overload_run
      (fun n => if n ≤ j then .serverError overloadedErr else .serverError e) j 1
      (by simp only [max_retries] at hj ⊢; omega)
      (fun n hn1 hn2 => by simp [show n ≤ j by omega])
    have h0 : max_retries + 1 - 1 = max_retries := rfl
    rw [ask_question, ← h0, hrun]
    have hfx : max_retries + 1 - (1 + j) = (max_retries - 1 - j) + 1 := by
      simp only [max_retries] at hj ⊢; omega
    have herr : (fun n => if n ≤ j then TransportResp.serverError overloadedErr
        else TransportResp.serverError e) (1 + j) = .serverError e := by
      simp [show ¬(1 + j ≤ j) by omega]
    rw [hfx, askFrom_server_stop _ herr (by rintro ⟨h, -⟩; simp [hov] at h)]
    simp [Nat.add_comm]

/-- Witness for C6 (amended) at `j = 0` and a generic bad-request error. -/
theorem ask_question_nonoverload_immediate_witness :
    ask_question (fun n => if n ≤ 0 then .serverError overloadedErr
        else .apiError "400 INVALID_ARGUMENT") =
      ⟨"", 0 + 1, List.replicate 0 delay, [apiErrorUiMsg "400 INVALID_ARGUMENT"]⟩ :=
  (ask_question_nonoverload_immediate 0 (by decide) "400 INVALID_ARGUMENT" (by decide)).1

/-! ## Helper lemmas: history truncation -/

/-- Truncation (Python `l[-12:]` guarded by a length test) is exactly
"keep the last `2 * MAX_TURNS` elements", with no guard needed: dropping
`length - 12` elements is a no-op on short lists. -/
lemma truncateHist_eq_lastN (h : List Content) :
    truncateHist h = lastN (MAX_TURNS * 2) h := by
  rw [truncateHist, lastN]
  split
  · rfl
  · rw [Nat.sub_eq_zero_of_le (by omega), List.drop_zero]

lemma length_lastN (n : Nat) (l : List α) : (lastN n l).length = min n l.length := by
  rw [lastN, List.length_drop]; omega

/-- Taking the last `n` of a previously-last-`n`-truncated list extended on
the right agrees with truncating the untruncated extension. -/
lemma lastN_append_lastN (n : Nat) (xs ys : List α) :
    lastN n (lastN n xs ++ ys) = lastN n (xs ++ ys) := by
  rcases Nat.le_total n xs.length with hn | hn
  · rw [lastN, lastN, lastN, List.drop_append_eq_append_drop,
      List.drop_append_eq_append_drop, List.drop_drop]
    congr 1
    · congr 1
      simp only [List.length_append, List.length_drop]
      omega
    · congr 1
      simp only [List.length_append, List.length_drop]
      omega
  · have hxs : lastN n xs = xs := by
      rw [lastN, Nat.sub_eq_zero_of_le hn, List.drop_zero]
    rw [hxs]

lemma foldl_appendPairStep (ps : List (Content × Content)) (xs : List Content) :
    ps.foldl appendPairStep (lastN (MAX_TURNS * 2) xs) =
      lastN (MAX_TURNS * 2) (xs ++ flattenPairs ps) := by
  induction ps generalizing xs with
  | nil => simp [flattenPairs]
  | cons p ps ih =>
    rw [List.foldl_cons]
    have hstep : appendPairStep (lastN (MAX_TURNS * 2) xs) p =
        lastN (MAX_TURNS * 2) (xs ++ [p.1, p.2]) := by
      rw [appendPairStep, truncateHist_eq_lastN, lastN_append_lastN]
    rw [hstep, ih (xs ++ [p.1, p.2])]
    simp [flattenPairs, List.append_assoc]

lemma runPairs_eq_lastN (ps : List (Content × Content)) :
    runPairs ps = lastN (MAX_TURNS * 2) (flattenPairs ps) := by
  have h := foldl_appendPairStep ps []
  simpa [runPairs, lastN] using h

lemma flattenPairs_length (q : List (Content × Content)) :
    (flattenPairs q).length = 2 * q.length := by
  induction q with
  | nil => simp [flattenPairs]
  | cons p q ih => simp [flattenPairs, ih]; omega

lemma flattenPairs_drop (q : List (Content × Content)) :
    ∀ k, flattenPairs (q.drop k) = (flattenPairs q).drop (2 * k) := by
  induction q with
  | nil => intro k; simp [flattenPairs]
  | cons p q ih =>
    intro k
    cases k with
    | zero => simp
    | succ k =>
      have h2 : 2 * (k + 1) = (2 * k) + 1 + 1 := by omega
      simp only [List.drop_succ_cons, flattenPairs, h2, ih k]

/-- Claim C3: starting from an empty history and appending user/assistant
pairs with truncation after each append, the history is always exactly the
flattening of the most recent `MAX_TURNS` pairs: length `2 * min 6 (number
of pairs)`, hence at most 12 and always even, and eviction only removes
whole oldest pairs from the front. -/
theorem history_sliding_window (ps : List (Content × Content)) :
    runPairs ps = flattenPairs (lastN MAX_TURNS ps) ∧
    (runPairs ps).length = 2 * min MAX_TURNS ps.length ∧
    (runPairs ps).length ≤ 2 * MAX_TURNS ∧
    2 ∣ (runPairs ps).length := by
  have hmain : runPairs ps = flattenPairs (lastN MAX_TURNS ps) := by
    rw [runPairs_eq_lastN, lastN, lastN, flattenPairs_drop, flattenPairs_length]
    congr 1
    omega
  refine ⟨hmain, ?_, ?_, ?_⟩
  · rw [hmain, flattenPairs_length, length_lastN]
  · rw [hmain, flattenPairs_length, length_lastN]
    simp only [MAX_TURNS]
    omega
  · rw [hmain, flattenPairs_length]
    exact Dvd.intro _ rfl

/-- Witness for C3 at seven appended pairs: the history hits the cap of
`2 * MAX_TURNS` entries. -/
theorem history_sliding_window_witness :
    (runPairs (List.replicate 7 (⟨"user", "u"⟩, ⟨"model", "a"⟩))).length ≤ 2 * MAX_TURNS :=
  (history_sliding_window (List.replicate 7 (⟨"user", "u"⟩, ⟨"model", "a"⟩))).2.2.1

/-! ## Helper lemmas: the submission handler -/

lemma handleInput_throttled (tr : Nat → TransportResp) (hist : List Content)
    (last now : ℚ) (input : String) (h : now - last < MIN_INTERVAL) :
    handleInput tr hist last now input =
      ⟨hist, now, none, none, 0, [], [intervalWarning], []⟩ := by
  rw [handleInput, if_pos h]

lemma handleInput_allowed (tr : Nat → TransportResp) (hist : List Content)
    (last now : ℚ) (input : String) (h : ¬(now - last < MIN_INTERVAL)) :
    handleInput tr hist last now input =
      ⟨truncateHist (hist ++ [⟨"user", input⟩,
        ⟨"model", if (ask_question tr).text = "" then fallbackMsg else (ask_question tr).text⟩]),
       now, some (hist ++ [⟨"user", input⟩]),
       some (if (ask_question tr).text = "" then fallbackMsg else (ask_question tr).text),
       (ask_question tr).attempts, (ask_question tr).sleeps, [], (ask_question tr).uiErrors⟩ := by
  rw [handleInput, if_neg h]

/-- Truncation never touches the most recent entry. -/
lemma truncateHist_getLast (l : List Content) :
    (truncateHist l).getLast? = l.getLast? := by
  rw [truncateHist_eq_lastN, lastN, List.getLast?_drop]
  split
  · rename_i hle
    have h0 : l.length = 0 := by simp only [MAX_TURNS] at hle; omega
    rw [List.length_eq_zero.mp h0]
    rfl
  · rfl

/-! ## Claims about the throttle and the query flow -/

/-- Claim C4: the throttle rejects a submission exactly when
`now - last_request_time < 1.5`, and it updates `last_request_time` to `now`
whether or not the submission was rejected. Consequently the rejection
window slides: after an allowed call at `t` and a rejected call at `t + 1`,
a call 1.6 seconds after the rejected one is allowed again. -/
theorem throttle_check_and_record (tr : Nat → TransportResp) (hist : List Content)
    (last now : ℚ) (input : String) :
    ((handleInput tr hist last now input).sent = none ↔ now - last < MIN_INTERVAL) ∧
    (handleInput tr hist last now input).last_request_time = now ∧
    (∀ t : ℚ,
      (handleInput tr hist (t - 2) t input).sent ≠ none ∧
      (handleInput tr (handleInput tr hist (t - 2) t input).history
          (handleInput tr hist (t - 2) t input).last_request_time (t + 1) input).sent = none ∧
      (handleInput tr
          (handleInput tr (handleInput tr hist (t - 2) t input).history
            (handleInput tr hist (t - 2) t input).last_request_time (t + 1) input).history
          (handleInput tr (handleInput tr hist (t - 2) t input).history
            (handleInput tr hist (t - 2) t input).last_request_time (t + 1) input).last_request_time
          (t + 1 + 8 / 5) input).sent ≠ none) := by
  refine ⟨?_, ?_, ?_⟩
  · by_cases hc : now - last < MIN_INTERVAL
    · rw [handleInput_throttled tr hist last now input hc]; simp [hc]
    · rw [handleInput_allowed tr hist last now input hc]; simp [hc]
  · by_cases hc : now - last < MIN_INTERVAL
    · rw [handleInput_throttled tr hist last now input hc]
    · rw [handleInput_allowed tr hist last now input hc]
  · intro t
    have e1 : t - (t - 2) = 2 := by ring
    have h1 : ¬(t - (t - 2) < MIN_INTERVAL) := by rw [e1, MIN_INTERVAL]; norm_num
    rw [handleInput_allowed tr hist (t - 2) t input h1]
    dsimp only
    have e2 : t + 1 - t = 1 := by ring
    have h2 : t + 1 - t < MIN_INTERVAL := by rw [e2, MIN_INTERVAL]; norm_num
    rw [handleInput_throttled tr _ t (t + 1) input h2]
    dsimp only
    have e3 : t + 1 + 8 / 5 - (t + 1) = 8 / 5 := by ring
    have h3 : ¬(t + 1 + 8 / 5 - (t + 1) < MIN_INTERVAL) := by rw [e3, MIN_INTERVAL]; norm_num
    rw [handleInput_allowed tr _ (t + 1) (t + 1 + 8 / 5) input h3]
    simp

/-- Witness for C4: an allowed submission records its own time as the new
`last_request_time`. -/
theorem throttle_check_and_record_witness :
    (handleInput (fun _ => .success (some "a")) [] 0 2 "q").last_request_time = 2 :=
  (throttle_check_and_record (fun _ => .success (some "a")) [] 0 2 "q").2.1

/-- Claim C8: a throttled submission consumes no query attempt and leaves
the session state other than `last_request_time` unchanged: the history gets
no new turns, nothing is sent to the remote model, no delay is incurred,
and only the wait warning is shown. -/
theorem throttle_rejection_frame (tr : Nat → TransportResp) (hist : List Content)
    (last now : ℚ) (input : String) (h : now - last < MIN_INTERVAL) :
    (handleInput tr hist last now input).history = hist ∧
    (handleInput tr hist last now input).sent = none ∧
    (handleInput tr hist last now input).attempts = 0 ∧
    (handleInput tr hist last now input).sleeps = [] ∧
    (handleInput tr hist last now input).displayed = none ∧
    (handleInput tr hist last now input).warnings = [intervalWarning] ∧
    (handleInput tr hist last now input).last_request_time = now := by
  rw [handleInput_throttled tr hist last now input h]
  exact ⟨rfl, rfl, rfl, rfl, rfl, rfl, rfl⟩

/-- Witness for C8: a second submission one second after the first is
rejected with the history untouched and no remote attempt. -/
theorem throttle_rejection_frame_witness :
    (handleInput (fun _ => .success (some "a")) [] 0 1 "q").history = ([] : List Content) ∧
    (handleInput (fun _ => .success (some "a")) [] 0 1 "q").attempts = 0 :=
  ⟨(throttle_rejection_frame (fun _ => .success (some "a")) [] 0 1 "q"
      (by rw [MIN_INTERVAL]; norm_num)).1,
   (throttle_rejection_frame (fun _ => .success (some "a")) [] 0 1 "q"
      (by rw [MIN_INTERVAL]; norm_num)).2.2.1⟩

/-- Claim C10: a submission that passes the throttle appends exactly one
user turn and one model turn (then truncates), whatever the query outcome;
when the executor returns an empty string the stored model turn is the
fallback message itself, it is the most recent history entry, and any
subsequent allowed submission replays it to the model inside the request
contents. -/
theorem query_flow_appends_pair (tr : Nat → TransportResp) (hist : List Content)
    (last now : ℚ) (input : String) (h : ¬(now - last < MIN_INTERVAL)) :
    (handleInput tr hist last now input).history =
      truncateHist (hist ++ [⟨"user", input⟩,
        ⟨"model", if (ask_question tr).text = "" then fallbackMsg else (ask_question tr).text⟩]) ∧
    (handleInput tr hist last now input).sent = some (hist ++ [⟨"user", input⟩]) ∧
    ((ask_question tr).text = "" →
      (handleInput tr hist last now input).history.getLast? =
        some ⟨"model", fallbackMsg⟩) ∧
    ((ask_question tr).text = "" → ∀ (tr2 : Nat → TransportResp) (now2 : ℚ) (input2 : String),
      ¬(now2 - (handleInput tr hist last now input).last_request_time < MIN_INTERVAL) →
      Content.mk "model" fallbackMsg ∈
        ((handleInput tr2 (handleInput tr hist last now input).history
          (handleInput tr hist last now input).last_request_time now2 input2).sent).getD []) := by
  have hlast : ∀ he : (ask_question tr).text = "",
      (handleInput tr hist last now input).history.getLast? =
        some (Content.mk "model" fallbackMsg) := by
    intro he
    rw [handleInput_allowed tr hist last now input h]
    dsimp only
    rw [if_pos he, truncateHist_getLast,
      show hist ++ [Content.mk "user" input, Content.mk "model" fallbackMsg] =
        (hist ++ [Content.mk "user" input]) ++ [Content.mk "model" fallbackMsg] by simp,
      List.getLast?_concat]
  refine ⟨?_, ?_, hlast, ?_⟩
  · rw [handleInput_allowed tr hist last now input h]
  · rw [handleInput_allowed tr hist last now input h]
  · intro he tr2 now2 input2 h2
    have hmem : Content.mk "model" fallbackMsg ∈ (handleInput tr hist last now input).history :=
      List.mem_of_mem_getLast? (hlast he)
    rw [handleInput_allowed tr2 _ _ _ _ h2]
    dsimp only [Option.getD]
    exact List.mem_append_left _ hmem

/-- Witness for C10: an overload-exhausted query stores the fallback string
as the model turn. -/
theorem query_flow_appends_pair_witness :
    (handleInput (overloadThenSuccess 9 "x") [] 0 2 "q").history.getLast? =
      some ⟨"model", fallbackMsg⟩ :=
  (query_flow_appends_pair (overloadThenSuccess 9 "x") [] 0 2 "q"
    (by rw [MIN_INTERVAL]; norm_num)).2.2.1 (by decide)

/-- Claim C2 counterexample: a successful query whose text is empty (no
error banner is shown, the transport succeeded) still has the fallback
message substituted by the UI — the error fallback is not reserved for the
error case, and the caller cannot tell this success apart from an error. -/
theorem empty_success_gets_fallback :
    (ask_question (fun _ => TransportResp.success (some ""))).uiErrors = [] ∧
    (ask_question (fun _ => TransportResp.success (some ""))).text = "" ∧
    (handleInput (fun _ => TransportResp.success (some "")) [] 0 2 "q").displayed =
      some fallbackMsg := by
  refine ⟨by decide, by decide, ?_⟩
  have he : (ask_question (fun _ => TransportResp.success (some ""))).text = "" := by decide
  rw [handleInput_allowed _ _ _ _ _ (by rw [MIN_INTERVAL]; norm_num)]
  dsimp only
  rw [if_pos he]

/-- Claim C2 (amended): the executor reports its outcome only through the
returned string, so the caller can distinguish success-with-non-empty-text
from everything else, but not an empty successful answer from an error; the
UI substitutes the fixed fallback message exactly when the returned string
is empty, including for a successful empty answer. -/
theorem answer_fallback_substitution (tr : Nat → TransportResp) (hist : List Content)
    (last now : ℚ) (input : String) (h : ¬(now - last < MIN_INTERVAL)) :
    ((ask_question tr).text ≠ "" →
      (handleInput tr hist last now input).displayed = some (ask_question tr).text) ∧
    ((ask_question tr).text = "" →
      (handleInput tr hist last now input).displayed = some fallbackMsg) := by
  rw [handleInput_allowed tr hist last now input h]
  constructor
  · intro hne; dsimp only; rw [if_neg hne]
  · intro he; dsimp only; rw [if_pos he]

/-- Witness for C2 (amended): a non-empty successful answer is displayed
verbatim. -/
theorem answer_fallback_substitution_witness :
    (handleInput (fun _ => TransportResp.success (some "hi")) [] 0 2 "q").displayed =
      some (ask_question (fun _ => TransportResp.success (some "hi"))).text :=
  (answer_fallback_substitution (fun _ => TransportResp.success (some "hi")) [] 0 2 "q"
    (by rw [MIN_INTERVAL]; norm_num)).1 (by decide)

/-! ## Helper lemmas: store resolution -/

/-- The scan loop returns the first listed store whose display name equals
the requested one: there is a decomposition of the listing with no earlier
match, or there is no match at all. -/
lemma scanStores_spec (dn : String) (env : List Store) :
    (∃ pre s post, env = pre ++ s :: post ∧ s.display_name = some dn ∧
        (∀ x ∈ pre, x.display_name ≠ some dn) ∧ scanStores dn env = some s) ∨
    ((∀ x ∈ env, x.display_name ≠ some dn) ∧ scanStores dn env = none) := by
  induction env with
  | nil => right; exact ⟨by simp, rfl⟩
  | cons a rest ih =>
    by_cases ha : a.display_name = some dn
    · left
      exact ⟨[], a, rest, rfl, ha, by simp, by simp [scanStores, ha]⟩
    · have hbeq : (a.display_name == some dn) = false := beq_eq_false_iff_ne.mpr ha
      rcases ih with ⟨pre, s, post, henv, hdn, hpre, hscan⟩ | ⟨hall, hscan⟩
      · left
        refine ⟨a :: pre, s, post, by rw [henv]; rfl, hdn, ?_, ?_⟩
        · intro x hx
          rcases List.mem_cons.mp hx with rfl | hx
          · exact ha
          · exact hpre x hx
        · simp [scanStores, hbeq, hscan]
      · right
        refine ⟨?_, by simp [scanStores, hbeq, hscan]⟩
        intro x hx
        rcases List.mem_cons.mp hx with rfl | hx
        · exact ha
        · exact hall x hx

/-! ## Claims about store resolution -/

/-- Claim C5: resolution scans the listing and returns the first store whose
display name exactly equals the requested one (creating one only when no
match exists), always with exactly one listing call; a second resolution of
the same display name hits the cache, returning the same store and leaving
the call counters unchanged — so two calls make at most one listing call and
at most one creation call in total. -/
theorem get_store_resolution_memoized (env : List Store) (created : String → Store)
    (dn : String) :
    ((∃ pre s post, env = pre ++ s :: post ∧ s.display_name = some dn ∧
        (∀ x ∈ pre, x.display_name ≠ some dn) ∧
        (get_store (.ok env) (fun n => .ok (created n)) dn ⟨[], 0, 0⟩).1 = .ok s ∧
        (get_store (.ok env) (fun n => .ok (created n)) dn ⟨[], 0, 0⟩).2.createCalls = 0) ∨
      ((∀ x ∈ env, x.display_name ≠ some dn) ∧
        (get_store (.ok env) (fun n => .ok (created n)) dn ⟨[], 0, 0⟩).1 = .ok (created dn) ∧
        (get_store (.ok env) (fun n => .ok (created n)) dn ⟨[], 0, 0⟩).2.createCalls = 1)) ∧
    (get_store (.ok env) (fun n => .ok (created n)) dn ⟨[], 0, 0⟩).2.listCalls = 1 ∧
    get_store (.ok env) (fun n => .ok (created n)) dn
        (get_store (.ok env) (fun n => .ok (created n)) dn ⟨[], 0, 0⟩).2 =
      ((get_store (.ok env) (fun n => .ok (created n)) dn ⟨[], 0, 0⟩).1,
       (get_store (.ok env) (fun n => .ok (created n)) dn ⟨[], 0, 0⟩).2) := by
  rcases scanStores_spec dn env with ⟨pre, s, post, henv, hdn, hpre, hscan⟩ | ⟨hall, hscan⟩
  · have h1 : get_store (.ok env) (fun n => .ok (created n)) dn ⟨[], 0, 0⟩ =
        (.ok s, ⟨[(dn, s)], 1, 0⟩) := by
      simp [get_store, hscan]
    have h2 : get_store (.ok env) (fun n => .ok (created n)) dn ⟨[(dn, s)], 1, 0⟩ =
        (.ok s, ⟨[(dn, s)], 1, 0⟩) := by
      simp [get_store, List.find?]
    refine ⟨Or.inl ⟨pre, s, post, henv, hdn, hpre, by rw [h1], by rw [h1]⟩, by rw [h1], ?_⟩
    rw [h1]
    exact h2
  · have h1 : get_store (.ok env) (fun n => .ok (created n)) dn ⟨[], 0, 0⟩ =
        (.ok (created dn), ⟨[(dn, created dn)], 1, 1⟩) := by
      simp [get_store, hscan]
    have h2 : get_store (.ok env) (fun n => .ok (created n)) dn ⟨[(dn, created dn)], 1, 1⟩ =
        (.ok (created dn), ⟨[(dn, created dn)], 1, 1⟩) := by
      simp [get_store, List.find?]
    refine ⟨Or.inr ⟨hall, by rw [h1], by rw [h1]⟩, by rw [h1], ?_⟩
    rw [h1]
    exact h2

/-- Witness for C5: resolving a name present in the listing makes exactly
one listing call. -/
theorem get_store_resolution_memoized_witness :
    (get_store (.ok [⟨"fileSearchStores/abc", some "presto_products"⟩])
        (fun n => .ok ⟨"fileSearchStores/new", some n⟩) "presto_products"
        ⟨[], 0, 0⟩).2.listCalls = 1 :=
  (get_store_resolution_memoized [⟨"fileSearchStores/abc", some "presto_products"⟩]
    (fun n => ⟨"fileSearchStores/new", some n⟩) "presto_products").2.1

/-- Claim C9: a transport error during listing or creation propagates to the
caller immediately (one listing attempt, no retried call), and the
memoization cache is left unchanged, so a later call with the same display
name re-attempts the listing. -/
theorem resolution_error_propagation (dn : String) (st : ResolveState)
    (hcache : st.cache.find? (fun e => e.1 == dn) = none)
    (e : String) (create_op : String → Except String Store)
    (env : List Store) (hmatch : scanStores dn env = none) :
    (get_store (.error e) create_op dn st).1 = .error e ∧
    (get_store (.error e) create_op dn st).2.cache = st.cache ∧
    (get_store (.error e) create_op dn st).2.listCalls = st.listCalls + 1 ∧
    (get_store (.error e) create_op dn st).2.createCalls = st.createCalls ∧
    (get_store (.ok env) (fun _ => .error e) dn st).1 = .error e ∧
    (get_store (.ok env) (fun _ => .error e) dn st).2.cache = st.cache ∧
    (get_store (.ok env) (fun _ => .error e) dn st).2.listCalls = st.listCalls + 1 ∧
    (get_store (.ok env) (fun _ => .error e) dn st).2.createCalls = st.createCalls + 1 ∧
    (get_store (.error e) create_op dn
        ((get_store (.error e) create_op dn st).2)).2.listCalls = st.listCalls + 2 := by
  have h1 : get_store (.error e) create_op dn st =
      (.error e, { st with listCalls := st.listCalls + 1 }) := by
    simp [get_store, hcache]
  have h2 : get_store (.ok env) (fun _ => .error e) dn st =
      (.error e, { st with listCalls := st.listCalls + 1,
                           createCalls := st.createCalls + 1 }) := by
    simp [get_store, hcache, hmatch]
  have h3 : get_store (.error e) create_op dn { st with listCalls := st.listCalls + 1 } =
      (.error e, { st with listCalls := st.listCalls + 1 + 1 }) := by
    simp [get_store, hcache]
  refine ⟨?_, ?_, ?_, ?_, ?_, ?_, ?_, ?_, ?_⟩ <;> simp [h1, h2, h3]

/-- Witness for C9: a failing listing call propagates its error and caches
nothing. -/
theorem resolution_error_propagation_witness :
    (get_store (.error "boom") (fun _ => .error "boom") "presto_products"
        ⟨[], 0, 0⟩).1 = .error "boom" ∧
    (get_store (.error "boom") (fun _ => .error "boom") "presto_products"
        ⟨[], 0, 0⟩).2.cache = [] :=
  ⟨(resolution_error_propagation "presto_products" ⟨[], 0, 0⟩ rfl "boom"
      (fun _ => .error "boom") [] rfl).1,
   (resolution_error_propagation "presto_products" ⟨[], 0, 0⟩ rfl "boom"
      (fun _ => .error "boom") [] rfl).2.1⟩

/-! ## Claims about startup -/

/-- Claim C7 counterexample: a credential that is present in the environment
but empty still halts startup (`if not api_key:` is true for the empty
string), contradicting "if the credential is present, startup proceeds". -/
theorem present_empty_key_halts :
    (some "" : Option String) ≠ none ∧
    startup (some "") = [.readEnv, .uiError cfgErrMsg, .halt] ∧
    StartupStep.buildClient ∉ startup (some "") := by
  refine ⟨by decide, by decide, by decide⟩

/-- Claim C7 (amended): if the credential is absent — or present but empty,
which Python's truthiness test treats the same way — the script halts
fatally right after the environment read, before any page rendering and
before client construction; if the credential is present and non-empty,
startup proceeds without halting. -/
theorem startup_credential_check (envKey : Option String) :
    (envKey = none → startup envKey = [.readEnv, .uiError cfgErrMsg, .halt]) ∧
    (pyTruthy envKey = false →
      startup envKey = [.readEnv, .uiError cfgErrMsg, .halt] ∧
      StartupStep.buildClient ∉ startup envKey ∧
      StartupStep.renderPage ∉ startup envKey ∧
      StartupStep.halt ∈ startup envKey) ∧
    (pyTruthy envKey = true →
      startup envKey = [.readEnv, .renderPage, .buildClient] ∧
      StartupStep.halt ∉ startup envKey) := by
  refine ⟨?_, ?_, ?_⟩
  · rintro rfl
    decide
  · intro hf
    have hs : startup envKey = [.readEnv, .uiError cfgErrMsg, .halt] := by
      simp [startup, hf]
    rw [hs]
    exact ⟨rfl, by decide, by decide, by decide⟩
  · intro ht
    have hs : startup envKey = [.readEnv, .renderPage, .buildClient] := by
      simp [startup, ht]
    rw [hs]
    exact ⟨rfl, by decide⟩

/-- Witness for C7 (amended): an absent credential halts with the config
error. -/
theorem startup_credential_check_witness :
    startup none = [.readEnv, .uiError cfgErrMsg, .halt] :=
  (startup_credential_check none).1 rfl

end Presto
